import Mathlib

/-!
# Webhook dispatch and delivery-tracking engine: a shallow embedding

This file embeds the webhook dispatch core of the repository
(`WebhookService` — event matching, payload construction, signing,
HTTP delivery with retry/backoff, delivery-record persistence and
aggregate statistics — together with the administrative create
endpoint) as executable Lean definitions, and proves the spec's
testable properties about them.

Modelling conventions:
* JS objects holding headers are modelled as association lists in
  write order, where a later write of the same key overrides the
  earlier one (`hset`).
* Nullable database columns are `Option` fields; JS truthiness of a
  nullable string (`if (webhook.secret)`) is "present and non-empty".
* The environment a delivery pipeline observes (HTTP transport,
  clock, random delivery ids, the JSON serializer and the HMAC
  primitive) is an explicit `Env` record indexed by attempt ordinal;
  the serializer and HMAC are abstract function fields since the
  claims depend only on which bytes they are applied to, not on the
  digest algorithm's internals.
* JS number arithmetic in the statistics endpoint is modelled with
  exact rationals; `Math.round` is `jsRound` (floor of x + 1/2).
* `retryCount` is an integer column; it is modelled as an optional
  natural number (the administrative surface only ever stores
  non-negative values).
-/

/-- A row of the `webhooks` table (`shared/schema.ts`), restricted to
the columns the dispatch core reads. -/
structure Webhook where
  id : String
  name : String
  url : String
  secret : Option String
  events : List String
  active : Nat
  userId : Option String
  headers : Option (List (String × String))
  retryCount : Option Nat
  deriving Repr, DecidableEq

/-- The wire payload `{ event, timestamp, data, webhookId }` built at
the top of `deliverWebhook`.  The arbitrary event `data` is opaque to
the service and modelled as a string. -/
structure WebhookPayload where
  event : String
  timestamp : String
  data : String
  webhookId : String
  deriving Repr, DecidableEq

/-- Outcome of one `fetch` call: either an HTTP response (any status)
or a thrown network-level error (timeout, DNS, connection refused). -/
inductive FetchResult where
  | resp (status : Nat) (statusText : String) (body : String)
  | err (msg : String)
  deriving Repr, DecidableEq

/-- Predicate `response.ok`: status in the 2xx range. -/
def respOk (status : Nat) : Bool := 200 ≤ status && status < 300

/-- Whether the attempt's fetch succeeded (`success = response.ok`;
a thrown fetch is never successful). -/
def fetchOk : FetchResult → Bool
  | .resp s _ _ => respOk s
  | .err _ => false

/-- The deterministic environment one delivery pipeline runs against,
indexed by attempt ordinal: transport outcome, wall-clock ISO
timestamp observed when the attempt's payload is built, measured
duration, the fresh random delivery id, and the (abstract) JSON
serializer and hex-encoded HMAC-SHA-256 primitive
(`hmacHex secret message`). -/
structure Env where
  fetch : Nat → FetchResult
  timeAt : Nat → String
  duration : Nat → Nat
  deliveryId : Nat → String
  jsonStringify : WebhookPayload → String
  hmacHex : String → String → String

/-- A row of the `webhook_deliveries` table as inserted by
`deliverWebhook` (both the response branch and the catch branch). -/
structure AttemptRec where
  webhookId : String
  eventType : String
  payload : WebhookPayload
  responseStatus : Option Nat
  responseBody : Option String
  duration : Nat
  success : Nat
  attempt : Nat
  error : Option String
  deriving Repr, DecidableEq

/-- JS object update `obj[k] = v` as seen by a key lookup: any earlier
binding of `k` is dropped and the new one appended. -/
def hset (hs : List (String × String)) (k v : String) : List (String × String) :=
  hs.filter (fun p => p.1 ≠ k) ++ [(k, v)]

/-- Object spread `{ ...hs, ...kvs }` as seen by a key lookup. -/
def hsetAll (hs : List (String × String)) (kvs : List (String × String)) :
    List (String × String) :=
  kvs.foldl (fun acc p => hset acc p.1 p.2) hs

/-- Header lookup. -/
def hget (hs : List (String × String)) (k : String) : Option String :=
  (hs.find? (fun p => p.1 = k)).map (·.2)

/-- JS truthiness of the nullable `secret` column: the signature branch
runs iff the secret is present and non-empty. -/
def secretKey (w : Webhook) : Option String :=
  match w.secret with
  | none => none
  | some s => if s = "" then none else some s

/-- Expression `webhook.retryCount || 3`: the effective retry bound used by
`deliverWebhook` — the stored value when non-zero, else 3 (`0` and
`null` are both falsy). -/
def effRetry (rc : Option Nat) : Nat :=
  match rc with
  | none => 3
  | some 0 => 3
  | some (n + 1) => n + 1

/-- Function `WebhookService.generateSignature`: HMAC-SHA-256 over
`JSON.stringify(payload)` keyed with the secret, formatted as
`sha256=<hex>`. -/
def generateSignature (env : Env) (payload : WebhookPayload) (secret : String) : String :=
  "sha256=" ++ env.hmacHex secret (env.jsonStringify payload)

/-- The outbound HTTP POST request of one attempt. -/
structure OutRequest where
  url : String
  headers : List (String × String)
  body : String
  deriving Repr, DecidableEq

/-- The request `deliverWebhook` sends on attempt `n`: base headers,
then the subscription's custom headers spread over them, then — only
when a secret is configured — the signature header set last; the body
is `JSON.stringify(payload)` of the payload built for this attempt. -/
def buildRequest (w : Webhook) (env : Env) (et data : String) (n : Nat) : OutRequest :=
  let payload : WebhookPayload := ⟨et, env.timeAt n, data, w.id⟩
  let base : List (String × String) :=
    [("Content-Type", "application/json"),
     ("User-Agent", "VideoHub-Webhook/1.0"),
     ("X-Webhook-Event", et),
     ("X-Webhook-Delivery-ID", env.deliveryId n)]
  let merged := hsetAll base (w.headers.getD [])
  let hs :=
    match secretKey w with
    | some s => hset merged "X-Webhook-Signature" (generateSignature env payload s)
    | none => merged
  { url := w.url, headers := hs, body := env.jsonStringify payload }

/-- The `webhook_deliveries` row attempt `n` inserts: response branch
on an HTTP response (status recorded, body truncated to 5000, error
message `HTTP <status>: <statusText>` unless 2xx), catch branch on a
thrown fetch (no status, error message truncated to 5000). -/
def mkRecord (w : Webhook) (env : Env) (et data : String) (n : Nat) : AttemptRec :=
  let payload : WebhookPayload := ⟨et, env.timeAt n, data, w.id⟩
  match env.fetch n with
  | .resp status statusText body =>
      { webhookId := w.id, eventType := et, payload := payload,
        responseStatus := some status,
        responseBody := some (body.take 5000),
        duration := env.duration n,
        success := if respOk status then 1 else 0,
        attempt := n,
        error := if respOk status then none
                 else some ("HTTP " ++ toString status ++ ": " ++ statusText) }
  | .err msg =>
      { webhookId := w.id, eventType := et, payload := payload,
        responseStatus := none, responseBody := none,
        duration := env.duration n,
        success := 0, attempt := n,
        error := some (msg.take 5000) }

/-- The retry loop of `deliverWebhook`, started at attempt `n`: insert
the attempt's record; on failure with `n < retryCount || 3`, schedule
a timer of `2^n * 1000` ms and run the next attempt.  Returns the
records inserted (in order) and the scheduled `(attemptNumber, delayMs)`
timers. -/
def deliverLoop (w : Webhook) (env : Env) (et data : String) (n : Nat) :
    List AttemptRec × List (Nat × Nat) :=
  let r := mkRecord w env et data n
  if fetchOk (env.fetch n) then ([r], [])
  else if h : n < effRetry w.retryCount then
    let rest := deliverLoop w env et data (n + 1)
    (r :: rest.1, (n, 2 ^ n * 1000) :: rest.2)
  else ([r], [])
termination_by effRetry w.retryCount - n
decreasing_by omega

/-- Function `WebhookService.deliverWebhook` at its default `attempt = 1`. -/
def deliverWebhook (w : Webhook) (env : Env) (et data : String) :
    List AttemptRec × List (Nat × Nat) :=
  deliverLoop w env et data 1

/-- The dispatch query and filter of `triggerEvent`: rows with
`active = 1` and `userId = <tenant>` (the SQL `where`), then the
in-process filter keeping subscriptions whose `events` contains the
event type. -/
def matchingWebhooks (store : List Webhook) (et uid : String) : List Webhook :=
  ((store.filter (fun w => w.active == 1 && w.userId == some uid)).filter
    (fun w => w.events.contains et))

/-- Function `WebhookService.triggerEvent`: one delivery pipeline per matching
subscription, each running against its own environment. -/
def triggerEvent (store : List Webhook) (envOf : Webhook → Env) (et data uid : String) :
    List (Webhook × (List AttemptRec × List (Nat × Nat))) :=
  (matchingWebhooks store et uid).map (fun w => (w, deliverWebhook w (envOf w) et data))

/-- The `try { ... } catch (error) { logger.error(...) }` wrapper of
`triggerEvent`: a raised error is logged and swallowed. -/
def tryCatchLog (act : Except String Unit) : Except String Unit :=
  match act with
  | .ok u => .ok u
  | .error _ => .ok ()

/-- Function `triggerEvent` in the exception-propagation view: the subscription
query may raise (`listActive`), each pipeline is an arbitrary promise
(`pipe`), and `Promise.allSettled` consumes all pipeline results
without propagating rejections. -/
def triggerEventE (listActive : Except String (List Webhook))
    (pipe : Webhook → Except String Unit) (et uid : String) : Except String Unit :=
  tryCatchLog (do
    let ws ← listActive
    let ms := (ws.filter (fun w => w.active == 1 && w.userId == some uid)).filter
      (fun w => w.events.contains et)
    let settled := ms.map pipe
    let _ := settled
    pure ())

/-- One step of the retry loop as it is visible at `triggerEvent`'s
`await Promise.allSettled`: a `deliverWebhook` promise settles once its
own attempt has completed and been recorded, while the recursive call
lives in a detached `setTimeout` callback.  Returns the attempt's
record and the scheduled `(attemptNumber, delayMs)` timer, if any. -/
def attemptOnce (w : Webhook) (env : Env) (et data : String) (n : Nat) :
    AttemptRec × Option (Nat × Nat) :=
  let r := mkRecord w env et data n
  (r, if !fetchOk (env.fetch n) && n < effRetry w.retryCount
      then some (n, 2 ^ n * 1000) else none)

/-- The state of a `triggerEvent` call at the moment it returns to its
caller: for each matching subscription, the settled first step of its
pipeline (`Promise.allSettled` awaits exactly these). -/
def triggerEventSync (store : List Webhook) (envOf : Webhook → Env)
    (et data uid : String) : List (Webhook × (AttemptRec × Option (Nat × Nat))) :=
  (matchingWebhooks store et uid).map (fun w => (w, attemptOnce w (envOf w) et data 1))

/-- The attempt records already written when `triggerEvent` returns. -/
def recordsBeforeReturn (store : List Webhook) (envOf : Webhook → Env)
    (et data uid : String) : List AttemptRec :=
  (triggerEventSync store envOf et data uid).map (fun p => p.2.1)

/-- A row of `webhook_deliveries` as read by `getDeliveryStats`. -/
structure DeliveryRow where
  success : Nat
  duration : Option Nat
  deriving Repr, DecidableEq

/-- The aggregate returned by `getDeliveryStats`. -/
structure DeliveryStats where
  total : Nat
  successful : Nat
  failed : Nat
  successRate : ℚ
  avgDuration : ℤ
  deriving Repr, DecidableEq

/-- JS `Math.round`: the half-up rounding `⌊x + 1/2⌋`. -/
def jsRound (q : ℚ) : ℤ := ⌊q + 1 / 2⌋

/-- Expression `Math.round(x * 100) / 100`: rounding to two decimal places. -/
def round2 (q : ℚ) : ℚ := (jsRound (q * 100) : ℚ) / 100

/-- Reduction `deliveries.reduce((sum, d) => sum + (d.duration || 0), 0)`. -/
def sumDuration (ds : List DeliveryRow) : Nat :=
  ds.foldl (fun sum d => sum + d.duration.getD 0) 0

/-- Function `WebhookService.getDeliveryStats`, applied to the subscription's
recorded attempts ordered newest-first (the query's
`orderBy(desc(createdAt)).limit(1000)` is the `take 1000`). -/
def getDeliveryStats (rows : List DeliveryRow) : DeliveryStats :=
  let deliveries := rows.take 1000
  let total := deliveries.length
  let successful := (deliveries.filter (fun d => d.success == 1)).length
  let failed := total - successful
  let successRate : ℚ := if total > 0 then ((successful : ℚ) / (total : ℚ)) * 100 else 0
  let avgDuration : ℚ :=
    (sumDuration deliveries : ℚ) / (((if total = 0 then 1 else total) : Nat) : ℚ)
  { total := total, successful := successful, failed := failed,
    successRate := round2 successRate,
    avgDuration := jsRound avgDuration }

/-- Lowercase hex digit, as produced by node's `toString("hex")`. -/
def hexDigit (n : Nat) : Char :=
  if n < 10 then Char.ofNat (48 + n) else Char.ofNat (97 + (n - 10))

/-- Two-character lowercase hex encoding of one byte. -/
def byteHex (b : Nat) : String :=
  String.mk [hexDigit (b / 16 % 16), hexDigit (b % 16)]

/-- Node `Buffer.toString("hex")`: concatenated per-byte hex encoding. -/
def bytesToHex (bs : List Nat) : String :=
  String.join (bs.map byteHex)

/-- JS truthiness of a possibly-absent string value. -/
def truthyStr : Option String → Bool
  | none => false
  | some s => !(s == "")

/-- The request body fields the `POST /api/admin/webhooks` handler
destructures.  A field that is absent, `null`, or (for `events`) not
an array is `none`. -/
structure CreateBody where
  name : Option String
  url : Option String
  secret : Option String
  events : Option (List String)
  description : Option String
  headers : Option (List (String × String))
  retryCount : Option Nat

/-- The `webhooks` row the create handler inserts. -/
structure StoredWebhook where
  name : String
  url : String
  secret : String
  events : List String
  active : Nat
  userId : String
  description : Option String
  headers : Option (List (String × String))
  retryCount : Nat
  deriving Repr, DecidableEq

/-- The `POST /api/admin/webhooks` handler: `401` without a user id,
`400` on missing name/url/events, empty events, or an invalid URL
(`new URL(url)` is the abstract `urlValid`); otherwise it inserts the
row with `secret || crypto.randomBytes(32).toString("hex")`,
`active: 1`, and `retryCount || 3`.  `none` is any rejected request. -/
def createWebhookHandler (userId : Option String) (body : CreateBody)
    (urlValid : String → Bool) (randBytes : List Nat) : Option StoredWebhook :=
  if !truthyStr userId then none
  else if !truthyStr body.name || !truthyStr body.url
      || body.events.isNone || (body.events.getD []).isEmpty then none
  else if !urlValid (body.url.getD "") then none
  else
    let generatedSecret :=
      if truthyStr body.secret then body.secret.getD "" else bytesToHex randBytes
    some { name := body.name.getD "", url := body.url.getD "",
           secret := generatedSecret,
           events := body.events.getD [], active := 1,
           userId := userId.getD "",
           description := body.description, headers := body.headers,
           retryCount := effRetry body.retryCount }

/-- An environment whose endpoint always answers HTTP 500 and whose
clock reads `t<n>` at attempt `n`. -/
def envAlways500 : Env :=
  { fetch := fun _ => .resp 500 "Internal Server Error" "oops"
    timeAt := fun n => "t" ++ toString n
    duration := fun _ => 5
    deliveryId := fun n => "id" ++ toString n
    jsonStringify := fun p => p.event ++ "|" ++ p.timestamp ++ "|" ++ p.data ++ "|" ++ p.webhookId
    hmacHex := fun s m => s ++ "#" ++ m }

/-- An environment whose endpoint fails attempt 1 and succeeds from
attempt 2 on. -/
def envOkAt2 : Env :=
  { envAlways500 with
    fetch := fun n => if n == 2 then .resp 200 "OK" "done" else .resp 500 "Internal Server Error" "oops" }

/-- A subscription with the default retry bound and no secret. -/
def whPlain : Webhook :=
  { id := "w1", name := "wh", url := "https://example.com/hook"
    secret := none, events := ["video.deleted"], active := 1
    userId := some "u1", headers := none, retryCount := some 3 }

/-- A subscription whose stored `retryCount` is `0`. -/
def whRetryZero : Webhook :=
  { whPlain with id := "w0", retryCount := some 0 }

/-- A subscription with a signing secret. -/
def whSigned : Webhook :=
  { whPlain with id := "w2", secret := some "s3cr3t" }

/-- A subscription with no secret whose custom headers smuggle in an
`X-Webhook-Signature` entry. -/
def whForged : Webhook :=
  { whPlain with id := "w3", headers := some [("X-Webhook-Signature", "forged")] }

/-- A create request that supplies no secret. -/
def witCreateBody : CreateBody :=
  { name := some "hook", url := some "https://example.com/hook"
    secret := none, events := some ["video.deleted"]
    description := none, headers := none, retryCount := none }

/-- C1: the pipelines started by `triggerEvent(eventType, data, tenantId)`
are exactly (in order, with multiplicity) the stored subscriptions that
are active, owned by `tenantId`, and subscribed to `eventType`. -/
theorem triggerEvent_starts_exactly_matching
    (store : List Webhook) (envOf : Webhook → Env) (et data uid : String) :
    (triggerEvent store envOf et data uid).map Prod.fst
      = store.filter
          (fun w => w.active == 1 && w.userId == some uid && w.events.contains et) := by
  unfold triggerEvent matchingWebhooks
  rw [List.map_map]
  have h1 : (Prod.fst ∘ fun w => (w, deliverWebhook w (envOf w) et data))
      = fun w : Webhook => w := rfl
  rw [h1, List.map_id', List.filter_filter]
  congr 1
  funext w
  rw [Bool.and_comm]

/-- C5: whatever the subscription store returns or raises and whatever
each pipeline does, `triggerEvent` returns normally to its caller. -/
theorem triggerEvent_never_raises
    (listActive : Except String (List Webhook))
    (pipe : Webhook → Except String Unit) (et uid : String) :
    triggerEventE listActive pipe et uid = Except.ok () := by
  cases listActive <;> rfl

/-! ## Structural lemmas about the retry loop -/

theorem effRetry_pos (rc : Option Nat) : 1 ≤ effRetry rc := by
  rcases rc with _ | (_ | k) <;> simp [effRetry]

theorem mkRecord_attempt (w : Webhook) (env : Env) (et data : String) (n : Nat) :
    (mkRecord w env et data n).attempt = n := by
  cases h : env.fetch n <;> simp [mkRecord, h]

theorem mkRecord_payload (w : Webhook) (env : Env) (et data : String) (n : Nat) :
    (mkRecord w env et data n).payload = ⟨et, env.timeAt n, data, w.id⟩ := by
  cases h : env.fetch n <;> simp [mkRecord, h]

theorem mkRecord_success (w : Webhook) (env : Env) (et data : String) (n : Nat) :
    (mkRecord w env et data n).success = if fetchOk (env.fetch n) then 1 else 0 := by
  cases h : env.fetch n with
  | resp s st b =>
      by_cases hs : respOk s <;> simp [mkRecord, h, fetchOk, hs]
  | err m => simp [mkRecord, h, fetchOk]

theorem deliverLoop_spec (w : Webhook) (env : Env) (et data : String) (n : Nat) :
    ∃ len : Nat,
      1 ≤ len ∧
      (deliverLoop w env et data n).1 = (List.range' n len).map (mkRecord w env et data) ∧
      (deliverLoop w env et data n).2
        = (List.range' n (len - 1)).map (fun m => (m, 2 ^ m * 1000)) ∧
      (∀ i, i + 1 < len →
        fetchOk (env.fetch (n + i)) = false ∧ n + i < effRetry w.retryCount) ∧
      (fetchOk (env.fetch (n + (len - 1))) = true ∨
        effRetry w.retryCount ≤ n + (len - 1)) := by
  induction n using deliverLoop.induct w env et data with
  | case1 n hok =>
      refine ⟨1, le_refl 1, ?_, ?_, ?_, ?_⟩
      · rw [deliverLoop]; simp [hok]
      · rw [deliverLoop]; simp [hok]
      · intro i hi; omega
      · left; simpa using hok
  | case2 n hok h ih =>
      obtain ⟨len, hlen, hrec, hdel, hfail, hlast⟩ := ih
      obtain ⟨m, rfl⟩ : ∃ m, len = m + 1 := ⟨len - 1, by omega⟩
      refine ⟨m + 2, by omega, ?_, ?_, ?_, ?_⟩
      · rw [deliverLoop]
        simp only [hok, h, if_neg, dif_pos, Bool.not_eq_true] at *
        rw [show m + 2 = (m + 1) + 1 from rfl, List.range'_succ, List.map_cons]
        simp [hok, hrec]
      · rw [deliverLoop]
        simp only [hok, h, Bool.not_eq_true] at *
        rw [show m + 2 - 1 = m + 1 from rfl, List.range'_succ, List.map_cons]
        simp only [Nat.add_sub_cancel] at hdel
        simp [hok, hdel]
      · intro i hi
        cases i with
        | zero =>
            constructor
            · simpa using hok
            · simpa using h
        | succ j =>
            have hj := hfail j (by omega)
            have hrw : n + (j + 1) = (n + 1) + j := by omega
            rw [hrw]
            exact hj
      · have hrw : n + (m + 2 - 1) = (n + 1) + ((m + 1) - 1) := by omega
        rw [hrw]
        exact hlast
  | case3 n hok h =>
      refine ⟨1, le_refl 1, ?_, ?_, ?_, ?_⟩
      · rw [deliverLoop]; simp [hok, h]
      · rw [deliverLoop]; simp [hok, h]
      · intro i hi; omega
      · right; omega

theorem deliverWebhook_records (w : Webhook) (env : Env) (et data : String) :
    (deliverWebhook w env et data).1
      = (List.range' 1 ((deliverWebhook w env et data).1.length)).map
          (mkRecord w env et data) := by
  obtain ⟨len, hlen, hrec, -, -, -⟩ := deliverLoop_spec w env et data 1
  unfold deliverWebhook at *
  rw [hrec]
  simp

theorem deliverWebhook_len_pos (w : Webhook) (env : Env) (et data : String) :
    1 ≤ (deliverWebhook w env et data).1.length := by
  obtain ⟨len, hlen, hrec, -, -, -⟩ := deliverLoop_spec w env et data 1
  unfold deliverWebhook at *
  rw [hrec]
  simpa using hlen

theorem deliverWebhook_delays (w : Webhook) (env : Env) (et data : String) :
    (deliverWebhook w env et data).2
      = (List.range' 1 ((deliverWebhook w env et data).1.length - 1)).map
          (fun m => (m, 2 ^ m * 1000)) := by
  obtain ⟨len, hlen, hrec, hdel, -, -⟩ := deliverLoop_spec w env et data 1
  unfold deliverWebhook at *
  rw [hdel, hrec]
  simp

theorem deliverWebhook_fail_before (w : Webhook) (env : Env) (et data : String) :
    ∀ i, i + 1 < (deliverWebhook w env et data).1.length →
      fetchOk (env.fetch (1 + i)) = false ∧ 1 + i < effRetry w.retryCount := by
  obtain ⟨len, hlen, hrec, -, hfail, -⟩ := deliverLoop_spec w env et data 1
  unfold deliverWebhook at *
  rw [hrec]
  simpa using hfail

theorem deliverWebhook_last (w : Webhook) (env : Env) (et data : String) :
    fetchOk (env.fetch ((deliverWebhook w env et data).1.length)) = true
      ∨ effRetry w.retryCount ≤ (deliverWebhook w env et data).1.length := by
  obtain ⟨len, hlen, hrec, -, -, hlast⟩ := deliverLoop_spec w env et data 1
  unfold deliverWebhook at *
  rw [hrec]
  have hrw : 1 + (len - 1) = len := by omega
  rw [hrw] at hlast
  simpa using hlast

theorem deliverWebhook_len_le (w : Webhook) (env : Env) (et data : String) :
    (deliverWebhook w env et data).1.length ≤ effRetry w.retryCount := by
  have hpos := deliverWebhook_len_pos w env et data
  have hfail := deliverWebhook_fail_before w env et data
  by_cases h1 : (deliverWebhook w env et data).1.length = 1
  · rw [h1]; exact effRetry_pos _
  · have h2 : 2 ≤ (deliverWebhook w env et data).1.length := by omega
    have := (hfail ((deliverWebhook w env et data).1.length - 2) (by omega)).2
    omega

/-! ## Header-map lemmas -/

theorem hget_hset_self (hs : List (String × String)) (k v : String) :
    hget (hset hs k v) k = some v := by
  unfold hget hset
  rw [List.find?_append]
  have h1 : (hs.filter (fun p => p.1 ≠ k)).find? (fun p => decide (p.1 = k)) = none := by
    rw [List.find?_eq_none]
    intro p hp
    have h2 := List.of_mem_filter hp
    simp only [decide_not, Bool.not_eq_true', decide_eq_false_iff_not] at h2
    simpa using h2
  rw [h1]
  simp

theorem mem_hset (hs : List (String × String)) (k v : String) (p : String × String)
    (hp : p ∈ hset hs k v) : p ∈ hs ∨ p = (k, v) := by
  unfold hset at hp
  rcases List.mem_append.1 hp with h | h
  · exact .inl (List.mem_of_mem_filter h)
  · simp only [List.mem_singleton] at h
    exact .inr h

theorem mem_hsetAll (kvs : List (String × String)) (hs : List (String × String))
    (p : String × String) (hp : p ∈ hsetAll hs kvs) : p ∈ hs ∨ p ∈ kvs := by
  induction kvs generalizing hs with
  | nil => exact .inl hp
  | cons q l ih =>
      rcases ih (hset hs q.1 q.2) (by simpa [hsetAll] using hp) with h | h
      · rcases mem_hset _ _ _ _ h with h' | h'
        · exact .inl h'
        · right
          rw [h']
          exact List.mem_cons_self _ _
      · exact .inr (List.mem_cons_of_mem _ h)

theorem hget_eq_none (hs : List (String × String)) (k : String)
    (h : ∀ p ∈ hs, p.1 ≠ k) : hget hs k = none := by
  unfold hget
  rw [List.find?_eq_none.2]
  · rfl
  · intro p hp
    simpa using h p hp

/-! ## Claim theorems: retry behaviour -/

/-- C2, counterexample to the claim as stated: a subscription whose
configured `maxRetries` (the stored `retryCount`) is `0` should,
per the claim, produce `min(k, 0) = 0` attempt records and schedule no
retry; the code's `retryCount || 3` treats the configured `0` as `3`,
so three attempts run and two retries are scheduled. -/
theorem retryZero_attempt_count_counterexample :
    (deliverWebhook whRetryZero envAlways500 "video.deleted" "dat").1.length = 3 ∧
    (deliverWebhook whRetryZero envAlways500 "video.deleted" "dat").1.length ≠ 0 ∧
    (deliverWebhook whRetryZero envAlways500 "video.deleted" "dat").2
      = [(1, 2000), (2, 4000)] := by
  refine ⟨?_, ?_, ?_⟩ <;>
    simp [deliverWebhook, deliverLoop, whRetryZero, whPlain, envAlways500,
      effRetry, fetchOk, respOk, mkRecord]

/-- C2 (amended): with `maxRetries` read as the effective bound
`retryCount || 3` — the configured value when positive and `3` when it
is absent or `0` — a pipeline produces `min(k, maxRetries)` attempt
records where `k` is the first succeeding attempt ordinal (exactly
`maxRetries` when none succeeds), a failed attempt's retry is
scheduled iff its ordinal is strictly below `maxRetries`, and attempt
ordinals are the consecutive integers starting at 1. -/
theorem deliverWebhook_attempt_count (w : Webhook) (env : Env) (et data : String) :
    ((∀ m, 1 ≤ m → fetchOk (env.fetch m) = false) →
        (deliverWebhook w env et data).1.length = effRetry w.retryCount) ∧
    (∀ k, 1 ≤ k → fetchOk (env.fetch k) = true →
        (∀ j, 1 ≤ j → j < k → fetchOk (env.fetch j) = false) →
        (deliverWebhook w env et data).1.length = min k (effRetry w.retryCount)) ∧
    (∀ r ∈ (deliverWebhook w env et data).1, r.success = 0 →
        ((∃ d, (r.attempt, d) ∈ (deliverWebhook w env et data).2) ↔
          r.attempt < effRetry w.retryCount)) ∧
    ((deliverWebhook w env et data).1.map (fun r => r.attempt)
        = List.range' 1 ((deliverWebhook w env et data).1.length)) := by
  have hlast := deliverWebhook_last w env et data
  have hle := deliverWebhook_len_le w env et data
  have hpos := deliverWebhook_len_pos w env et data
  have hfail := deliverWebhook_fail_before w env et data
  refine ⟨?_, ?_, ?_, ?_⟩
  · intro hnone
    rcases hlast with hok | hR
    · rw [hnone _ hpos] at hok
      exact absurd hok (by simp)
    · omega
  · intro k hk1 hkok hkmin
    have hkL : (deliverWebhook w env et data).1.length ≤ k := by
      by_contra hlt
      push_neg at hlt
      have h2 := (hfail (k - 1) (by omega)).1
      rw [show 1 + (k - 1) = k by omega] at h2
      rw [h2] at hkok
      exact absurd hkok (by simp)
    rcases hlast with hok | hR
    · have hLk : k ≤ (deliverWebhook w env et data).1.length := by
        by_contra hgt
        push_neg at hgt
        have h3 := hkmin _ hpos hgt
        rw [h3] at hok
        exact absurd hok (by simp)
      omega
    · omega
  · intro r hr hs
    rw [deliverWebhook_records w env et data] at hr
    obtain ⟨m, hm, rfl⟩ := List.mem_map.1 hr
    rw [List.mem_range'_1] at hm
    rw [mkRecord_attempt]
    have hmfail : fetchOk (env.fetch m) = false := by
      rw [mkRecord_success] at hs
      by_cases hb : fetchOk (env.fetch m)
      · rw [if_pos hb] at hs
        exact absurd hs (by simp)
      · simpa using hb
    constructor
    · rintro ⟨d, hd⟩
      rw [deliverWebhook_delays w env et data] at hd
      obtain ⟨m', hm', heq⟩ := List.mem_map.1 hd
      rw [List.mem_range'_1] at hm'
      have hmm : m' = m := congrArg Prod.fst heq
      subst hmm
      have h4 := (hfail (m' - 1) (by omega)).2
      omega
    · intro hmR
      refine ⟨2 ^ m * 1000, ?_⟩
      rw [deliverWebhook_delays w env et data]
      apply List.mem_map.2
      refine ⟨m, ?_, rfl⟩
      rw [List.mem_range'_1]
      have hmL : m < (deliverWebhook w env et data).1.length := by
        rcases Nat.lt_or_ge m ((deliverWebhook w env et data).1.length) with h | h
        · exact h
        · have hmeq : m = (deliverWebhook w env et data).1.length := by omega
          rcases hlast with hok | hR
          · rw [← hmeq, hmfail] at hok
            exact absurd hok (by simp)
          · omega
      omega
  · rw [deliverWebhook_records w env et data, List.map_map]
    have hcomp : ((fun r : AttemptRec => r.attempt) ∘ mkRecord w env et data)
        = fun n => n := funext fun n => mkRecord_attempt w env et data n
    rw [hcomp, List.map_id']
    congr 1
    simp

/-- C2 witness: against an endpoint that fails attempt 1 and succeeds
on attempt 2, a default-bound subscription produces exactly two
attempt records (`min(2, 3)`). -/
theorem deliverWebhook_attempt_count_witness :
    (deliverWebhook whPlain envOkAt2 "video.deleted" "dat").1.length = 2 := by
  have h := (deliverWebhook_attempt_count whPlain envOkAt2 "video.deleted" "dat").2.1 2
    (by omega)
    (by simp [envOkAt2, envAlways500, fetchOk, respOk])
    (by
      intro j h1 h2
      interval_cases j
      simp [envOkAt2, envAlways500, fetchOk, respOk])
  rw [h]
  simp [whPlain, effRetry]

/-- C6: whenever a retry timer is scheduled after failed attempt `n`,
its delay is exactly `2^n * 1000` milliseconds — no jitter, no cap. -/
theorem retry_delay_exact (w : Webhook) (env : Env) (et data : String) (n d : Nat)
    (h : (n, d) ∈ (deliverWebhook w env et data).2) : d = 2 ^ n * 1000 := by
  rw [deliverWebhook_delays w env et data] at h
  obtain ⟨m, hm, heq⟩ := List.mem_map.1 h
  injection heq with h1 h2
  subst h1
  exact h2.symm

/-- C6 witness: against an always-failing endpoint the first scheduled
retry is `(1, 2000)`, and the theorem yields `2000 = 2^1 * 1000`. -/
theorem retry_delay_exact_witness :
    (1, 2000) ∈ (deliverWebhook whPlain envAlways500 "video.deleted" "dat").2 ∧
    2000 = 2 ^ 1 * 1000 := by
  have hmem : (1, 2000) ∈ (deliverWebhook whPlain envAlways500 "video.deleted" "dat").2 := by
    simp [deliverWebhook, deliverLoop, whPlain, envAlways500, effRetry, fetchOk,
      respOk, mkRecord]
  exact ⟨hmem, retry_delay_exact whPlain envAlways500 "video.deleted" "dat" 1 2000 hmem⟩

/-- C9, counterexample to the claim as stated: the payload is rebuilt
on every attempt — `deliverWebhook` constructs a fresh
`new Date().toISOString()` at the top of each call — so the three
attempts of one logical delivery carry the three distinct timestamps
`t1`, `t2`, `t3`, not one payload object frozen at trigger time. -/
theorem retry_payload_not_reused_counterexample :
    ((deliverWebhook whPlain envAlways500 "video.deleted" "dat").1.map
        (fun r => r.payload.timestamp)) = ["t1", "t2", "t3"] ∧
    ¬ (∀ r ∈ (deliverWebhook whPlain envAlways500 "video.deleted" "dat").1,
        r.payload.timestamp = "t1") := by
  have h : ((deliverWebhook whPlain envAlways500 "video.deleted" "dat").1.map
      (fun r => r.payload.timestamp)) = ["t1", "t2", "t3"] := by
    simp [deliverWebhook, deliverLoop, whPlain, envAlways500, effRetry, fetchOk,
      respOk, mkRecord]
    decide
  refine ⟨h, fun hall => ?_⟩
  have h2 : "t2" ∈ ((deliverWebhook whPlain envAlways500 "video.deleted" "dat").1.map
      (fun r => r.payload.timestamp)) := by
    rw [h]
    simp
  obtain ⟨r, hr, hrt⟩ := List.mem_map.1 h2
  have h3 := hall r hr
  rw [hrt] at h3
  exact absurd h3 (by simp)

/-- C9 (amended): when a retry timer fires the attempter runs with
`attemptNumber + 1` and the same event data, but the payload envelope
is rebuilt for that attempt: every record's payload carries the event
type, the webhook id, the unchanged trigger data, and the timestamp
observed at that attempt, not the trigger-time one. -/
theorem retry_payload_rebuilt (w : Webhook) (env : Env) (et data : String) :
    ∀ r ∈ (deliverWebhook w env et data).1,
      r.payload = ⟨et, env.timeAt r.attempt, data, w.id⟩ := by
  intro r hr
  rw [deliverWebhook_records w env et data] at hr
  obtain ⟨m, hm, rfl⟩ := List.mem_map.1 hr
  rw [mkRecord_attempt, mkRecord_payload]

/-- C9 witness: the first record of a concrete run, with the theorem
applied to it. -/
theorem retry_payload_rebuilt_witness :
    (mkRecord whPlain envAlways500 "video.deleted" "dat" 1)
        ∈ (deliverWebhook whPlain envAlways500 "video.deleted" "dat").1 ∧
    (mkRecord whPlain envAlways500 "video.deleted" "dat" 1).payload
        = ⟨"video.deleted", envAlways500.timeAt 1, "dat", whPlain.id⟩ := by
  have hmem : (mkRecord whPlain envAlways500 "video.deleted" "dat" 1)
      ∈ (deliverWebhook whPlain envAlways500 "video.deleted" "dat").1 := by
    simp [deliverWebhook, deliverLoop, whPlain, envAlways500, effRetry, fetchOk,
      respOk]
  have h := retry_payload_rebuilt whPlain envAlways500 "video.deleted" "dat"
    (mkRecord whPlain envAlways500 "video.deleted" "dat" 1) hmem
  rw [mkRecord_attempt] at h
  exact ⟨hmem, h⟩

/-! ## Claim theorems: what triggerEvent awaits -/

/-- C8, counterexample to the claim as stated: `triggerEvent` runs
`await Promise.allSettled(deliveryPromises)`, and each
`deliverWebhook` promise settles only after its first attempt has
completed and been recorded — so with one matching subscription, one
attempt record is already written when `triggerEvent` returns, where
the claim predicts none. -/
theorem trigger_returns_before_attempts_counterexample :
    recordsBeforeReturn [whPlain] (fun _ => envAlways500) "video.deleted" "dat" "u1" ≠ [] ∧
    (recordsBeforeReturn [whPlain] (fun _ => envAlways500) "video.deleted" "dat" "u1").length
      = 1 := by
  constructor <;>
    simp [recordsBeforeReturn, triggerEventSync, matchingWebhooks, attemptOnce,
      whPlain, envAlways500]

/-- C8 (amended): `triggerEvent` returns once the first attempt of
every matching pipeline has completed and been recorded (these are
exactly the records written before return), and everything that runs
after return — the timer-driven remainder of each pipeline — consists
of attempts with ordinal at least 2. -/
theorem trigger_returns_after_first_attempts (store : List Webhook)
    (envOf : Webhook → Env) (et data uid : String) :
    recordsBeforeReturn store envOf et data uid
      = (matchingWebhooks store et uid).map (fun w => mkRecord w (envOf w) et data 1) ∧
    ∀ w ∈ matchingWebhooks store et uid,
      (deliverWebhook w (envOf w) et data).1.head?
          = some (mkRecord w (envOf w) et data 1) ∧
      ∀ r ∈ (deliverWebhook w (envOf w) et data).1.tail, 2 ≤ r.attempt := by
  constructor
  · unfold recordsBeforeReturn triggerEventSync
    rw [List.map_map]
    rfl
  · intro w hw
    have hrec := deliverWebhook_records w (envOf w) et data
    have hpos := deliverWebhook_len_pos w (envOf w) et data
    obtain ⟨m, hm⟩ : ∃ m, (deliverWebhook w (envOf w) et data).1.length = m + 1 :=
      ⟨(deliverWebhook w (envOf w) et data).1.length - 1, by omega⟩
    rw [hm, List.range'_succ] at hrec
    constructor
    · rw [hrec]
      simp
    · intro r hr
      rw [hrec] at hr
      simp only [List.map_cons, List.tail_cons] at hr
      obtain ⟨j, hj, rfl⟩ := List.mem_map.1 hr
      rw [List.mem_range'_1] at hj
      rw [mkRecord_attempt]
      omega

/-- C8 witness: the concrete single-subscription dispatch, with the
theorem applied to it. -/
theorem trigger_returns_after_first_attempts_witness :
    recordsBeforeReturn [whPlain] (fun _ => envAlways500) "video.deleted" "dat" "u1"
      = [mkRecord whPlain envAlways500 "video.deleted" "dat" 1] ∧
    (deliverWebhook whPlain envAlways500 "video.deleted" "dat").1.head?
      = some (mkRecord whPlain envAlways500 "video.deleted" "dat" 1) := by
  have h := trigger_returns_after_first_attempts [whPlain] (fun _ => envAlways500)
    "video.deleted" "dat" "u1"
  constructor
  · rw [h.1]
    simp [matchingWebhooks, whPlain]
  · exact (h.2 whPlain (by simp [matchingWebhooks, whPlain])).1

/-! ## Claim theorems: signing -/

/-- C3: whenever a non-empty secret is configured, the
`X-Webhook-Signature` header sent with attempt `n` is exactly
`sha256=<hex>` where `<hex>` is the HMAC-SHA-256 of that attempt's
request body, keyed with the secret — signature and body come from
the same serialization, and custom headers cannot override it. -/
theorem signature_matches_body (w : Webhook) (env : Env) (et data : String) (n : Nat)
    (s : String) (hs : secretKey w = some s) :
    hget (buildRequest w env et data n).headers "X-Webhook-Signature"
      = some ("sha256=" ++ env.hmacHex s ((buildRequest w env et data n).body)) := by
  unfold buildRequest
  rw [hs]
  simp only []
  rw [hget_hset_self]
  rfl

/-- C3 witness: the signed subscription's attempt-1 request. -/
theorem signature_matches_body_witness :
    hget (buildRequest whSigned envAlways500 "video.deleted" "dat" 1).headers
        "X-Webhook-Signature"
      = some ("sha256=" ++ envAlways500.hmacHex "s3cr3t"
          ((buildRequest whSigned envAlways500 "video.deleted" "dat" 1).body)) :=
  signature_matches_body whSigned envAlways500 "video.deleted" "dat" 1 "s3cr3t"
    (by simp [secretKey, whSigned, whPlain])

/-- C4, counterexample to the claim as stated: the subscription's
custom headers are spread into the header object, and with no secret
configured nothing removes or overwrites a custom
`X-Webhook-Signature` entry — so the outbound request does carry a
signature header, contradicting "regardless of the subscription's
custom headers". -/
theorem no_secret_no_signature_counterexample :
    secretKey whForged = none ∧
    hget (buildRequest whForged envAlways500 "video.deleted" "dat" 1).headers
        "X-Webhook-Signature"
      = some "forged" := by
  constructor
  · rfl
  · rfl

/-- C4 (amended): with no secret configured the service itself adds no
signature header: unless the subscription's custom headers smuggle in
an `X-Webhook-Signature` entry of their own, the outbound request
carries none. -/
theorem no_secret_no_signature (w : Webhook) (env : Env) (et data : String) (n : Nat)
    (hsec : secretKey w = none)
    (hcust : ∀ p ∈ w.headers.getD [], p.1 ≠ "X-Webhook-Signature") :
    hget (buildRequest w env et data n).headers "X-Webhook-Signature" = none := by
  unfold buildRequest
  rw [hsec]
  simp only []
  apply hget_eq_none
  intro p hp
  rcases mem_hsetAll _ _ _ hp with h | h
  · simp only [List.mem_cons, List.mem_singleton, List.not_mem_nil, or_false] at h
    rcases h with rfl | rfl | rfl | rfl <;> simp
  · exact hcust p h

/-- C4 witness: a subscription with no secret and no custom headers
sends no signature header. -/
theorem no_secret_no_signature_witness :
    hget (buildRequest whPlain envAlways500 "video.deleted" "dat" 1).headers
        "X-Webhook-Signature" = none :=
  no_secret_no_signature whPlain envAlways500 "video.deleted" "dat" 1
    (by rfl) (by simp [whPlain])

/-! ## Claim theorems: delivery statistics -/

theorem jsRound_zero : jsRound 0 = 0 := by
  unfold jsRound
  rw [show (0 : ℚ) + 1 / 2 = 1 / 2 by ring]
  rw [Int.floor_eq_iff]
  norm_num

/-- C7: `getDeliveryStats` is computed over the most recent 1000
recorded attempts (newest first): `total` counts them, `successful`
counts those with `success = 1`, `failed` is their difference,
`successRate` is `(successful/total)·100` rounded to two decimals and
`avgDuration` the mean duration rounded to the nearest integer when
`total > 0`, and both are exactly `0` when `total = 0`. -/
theorem getDeliveryStats_spec (rows : List DeliveryRow) :
    (getDeliveryStats rows).total = (rows.take 1000).length ∧
    (getDeliveryStats rows).successful
        = ((rows.take 1000).filter (fun d => d.success == 1)).length ∧
    (getDeliveryStats rows).failed
        = (getDeliveryStats rows).total - (getDeliveryStats rows).successful ∧
    (0 < (getDeliveryStats rows).total →
      (getDeliveryStats rows).successRate
          = round2 ((((getDeliveryStats rows).successful : ℚ)
              / ((getDeliveryStats rows).total : ℚ)) * 100) ∧
      (getDeliveryStats rows).avgDuration
          = jsRound ((sumDuration (rows.take 1000) : ℚ)
              / ((getDeliveryStats rows).total : ℚ))) ∧
    ((getDeliveryStats rows).total = 0 →
      (getDeliveryStats rows).successRate = 0 ∧
      (getDeliveryStats rows).avgDuration = 0) := by
  refine ⟨rfl, rfl, rfl, ?_, ?_⟩
  · intro hpos
    have htotal : (getDeliveryStats rows).total = (rows.take 1000).length := rfl
    rw [htotal] at hpos
    constructor
    · show round2 (if 0 < (rows.take 1000).length then _ else _) = _
      rw [if_pos hpos]
      rfl
    · show jsRound ((sumDuration (rows.take 1000) : ℚ)
          / (((if (rows.take 1000).length = 0 then 1 else (rows.take 1000).length) : Nat) : ℚ))
        = _
      rw [if_neg (by omega)]
      rfl
  · intro hzero
    have htotal : (getDeliveryStats rows).total = (rows.take 1000).length := rfl
    rw [htotal] at hzero
    constructor
    · show round2 (if 0 < (rows.take 1000).length then _ else _) = 0
      rw [if_neg (by omega)]
      unfold round2
      rw [show (0 : ℚ) * 100 = 0 by ring, jsRound_zero]
      norm_num
    · show jsRound ((sumDuration (rows.take 1000) : ℚ)
          / (((if (rows.take 1000).length = 0 then 1 else (rows.take 1000).length) : Nat) : ℚ))
        = 0
      rw [if_pos hzero]
      have hnil : rows.take 1000 = [] := List.length_eq_zero.1 hzero
      rw [hnil]
      show jsRound ((sumDuration [] : ℚ) / ((1 : Nat) : ℚ)) = 0
      rw [show (sumDuration [] : ℚ) = 0 from rfl]
      rw [show ((1 : Nat) : ℚ) = 1 by norm_num, div_one, jsRound_zero]

/-- C7 witness: one success and one failure give a 50% success rate;
the empty history gives exactly 0 for both rate and average. -/
theorem getDeliveryStats_spec_witness :
    (getDeliveryStats [⟨1, some 100⟩, ⟨0, some 50⟩]).successRate = 50 ∧
    (getDeliveryStats []).successRate = 0 ∧
    (getDeliveryStats []).avgDuration = 0 := by
  have h1 := (getDeliveryStats_spec [⟨1, some 100⟩, ⟨0, some 50⟩]).2.2.2.1 (by decide)
  have h2 := (getDeliveryStats_spec []).2.2.2.2 (by decide)
  refine ⟨?_, h2.1, h2.2⟩
  rw [h1.1]
  rw [show ((getDeliveryStats [⟨1, some 100⟩, ⟨0, some 50⟩]).successful : ℚ) = 1 by norm_num [getDeliveryStats]]
  rw [show ((getDeliveryStats [⟨1, some 100⟩, ⟨0, some 50⟩]).total : ℚ) = 2 by norm_num [getDeliveryStats]]
  unfold round2 jsRound
  rw [show (1 : ℚ) / 2 * 100 * 100 + 1 / 2 = 10001 / 2 by ring]
  have hf : ⌊(10001 : ℚ) / 2⌋ = 5000 := by
    rw [Int.floor_eq_iff]
    norm_num
  rw [hf]
  norm_num

/-! ## Claim theorems: administrative create endpoint -/

theorem byteHex_length (b : Nat) : (byteHex b).length = 2 := rfl

theorem foldl_append_length (l : List String) (s : String) :
    (l.foldl (fun a b => a ++ b) s).length = s.length + (l.map String.length).sum := by
  induction l generalizing s with
  | nil => simp
  | cons x xs ih =>
      simp only [List.foldl_cons, List.map_cons, List.sum_cons]
      rw [ih, String.length_append]
      omega

theorem bytesToHex_length (bs : List Nat) : (bytesToHex bs).length = 2 * bs.length := by
  unfold bytesToHex String.join
  rw [foldl_append_length]
  rw [List.map_map]
  have hcomp : (String.length ∘ byteHex) = fun _ : Nat => 2 :=
    funext fun b => byteHex_length b
  rw [hcomp]
  simp only [List.map_const']
  rw [List.sum_replicate]
  simp [Nat.mul_comm]

/-- C10: every subscription the `POST /api/admin/webhooks` handler
stores has a non-empty signing secret, and when the request supplies
no (or an empty) secret the stored secret is the hex encoding of the
32 random bytes — a 64-character hex string. -/
theorem createWebhook_secret_nonempty (uid : Option String) (body : CreateBody)
    (urlValid : String → Bool) (randBytes : List Nat) (sw : StoredWebhook)
    (hrand : randBytes.length = 32)
    (h : createWebhookHandler uid body urlValid randBytes = some sw) :
    sw.secret ≠ "" ∧
    (truthyStr body.secret = false →
      sw.secret = bytesToHex randBytes ∧ sw.secret.length = 64) := by
  unfold createWebhookHandler at h
  split at h
  · exact absurd h (by simp)
  split at h
  · exact absurd h (by simp)
  split at h
  · exact absurd h (by simp)
  rw [Option.some.injEq] at h
  by_cases hsec : truthyStr body.secret
  · refine ⟨?_, fun hfalse => absurd hsec (by rw [hfalse]; simp)⟩
    have hs : sw.secret = body.secret.getD "" := by
      rw [← h]
      simp [hsec]
    rw [hs]
    cases hb : body.secret with
    | none => rw [hb] at hsec; exact absurd hsec (by simp [truthyStr])
    | some s =>
        rw [hb] at hsec
        simp only [truthyStr, Bool.not_eq_true', beq_eq_false_iff_ne, ne_eq] at hsec
        simpa using hsec
  · have hs : sw.secret = bytesToHex randBytes := by
      rw [← h]
      simp [hsec]
    have hlen : sw.secret.length = 64 := by
      rw [hs, bytesToHex_length, hrand]
    refine ⟨?_, fun _ => ⟨hs, hlen⟩⟩
    intro hempty
    rw [hempty] at hlen
    exact absurd hlen (by simp)

/-- C10 witness: a concrete secretless create request stores the hex
encoding of the 32 random bytes, non-empty and 64 characters long. -/
theorem createWebhook_secret_nonempty_witness :
    bytesToHex (List.replicate 32 0) ≠ "" ∧
    (bytesToHex (List.replicate 32 0)).length = 64 := by
  have hsome : createWebhookHandler (some "u1") witCreateBody (fun _ => true)
      (List.replicate 32 0)
      = some { name := "hook", url := "https://example.com/hook"
               secret := bytesToHex (List.replicate 32 0)
               events := ["video.deleted"], active := 1, userId := "u1"
               description := none, headers := none, retryCount := 3 } := by
    simp [createWebhookHandler, witCreateBody, truthyStr, effRetry]
  have h := createWebhook_secret_nonempty (some "u1") witCreateBody (fun _ => true)
    (List.replicate 32 0) _ (by simp) hsome
  have h2 := h.2 (by rfl)
  exact ⟨by simpa using h.1, by simpa using h2.2⟩
